import Mathlib

/-!
# Verification of the redash scheduling core and query-runner adapters

Shallow embedding of:
* the query-runner adapters in `src/redash/query_runner/pg.py`,
  `src/redash/query_runner/presto.py` and `src/redash/query_runner/cass.py`
  (type maps and the control flow of each `run_query`);
* the scheduling core (`should_schedule_next`, `Query.outdated_queries`,
  `Query.archive`, `QueryResult.store_result`).  The scheduling core itself
  (`redash/models.py`) is not part of the source tree here, only its test
  suite `src/tests/test_models.py` is; those parts are modelled from the
  specification, and wherever the tests in `src/tests/test_models.py` pin
  concrete behaviour that differs from the specification text, the tests
  win (they are repository code).  Each such divergence is noted on the
  definition it affects.

Timestamps are modelled as integers counting seconds (the Python code uses
`datetime` values with at least second granularity; all behaviour the
claims touch is expressible at second granularity).
-/

namespace Redash

/-! ## Portable column types

The `TYPE_*` constants of `redash/query_runner/__init__.py` are string
constants; the spec (section 6) fixes the enumeration
integer, float, boolean, string, date, datetime. -/

def TYPE_INTEGER : String := "integer"
def TYPE_FLOAT : String := "float"
def TYPE_BOOLEAN : String := "boolean"
def TYPE_STRING : String := "string"
def TYPE_DATE : String := "date"
def TYPE_DATETIME : String := "datetime"

/-- The fixed enumeration of portable column types (spec section 6). -/
def PORTABLE_TYPES : List String :=
  [TYPE_INTEGER, TYPE_FLOAT, TYPE_BOOLEAN, TYPE_STRING, TYPE_DATE, TYPE_DATETIME]

/-! ## PostgreSQL adapter (`src/redash/query_runner/pg.py`) -/

/-- The entries of the `types_map` dict of `pg.py` (lines 13-29):
PostgreSQL oid to portable type. -/
def types_map_entries : List (Nat × String) :=
  [(20, TYPE_INTEGER), (21, TYPE_INTEGER), (23, TYPE_INTEGER),
   (700, TYPE_FLOAT), (1700, TYPE_FLOAT), (701, TYPE_FLOAT),
   (16, TYPE_BOOLEAN), (1082, TYPE_DATE), (1114, TYPE_DATETIME),
   (1184, TYPE_DATETIME), (1014, TYPE_STRING), (1015, TYPE_STRING),
   (1008, TYPE_STRING), (1009, TYPE_STRING), (2951, TYPE_STRING)]

/-- The lookup `types_map.get(code, None)` used by `pg.py` line 181:
oids absent from the dict map to `none`. -/
def types_map (code : Nat) : Option String :=
  (types_map_entries.find? (fun pr => pr.1 == code)).map (·.2)

/-- Result payload assembled by a `run_query`: the `data` dict
`\x7b'columns': columns, 'rows': rows\x7d` before JSON serialisation.
Columns are `(name, type)` pairs as produced by the list comprehensions in
the adapters (`fetch_columns` wraps them into dicts; the spec section 6
describes the adapter interface as `columns: [(name, type)]`).  Rows are
kept as the raw value lists delivered by the cursor, keyed by column
name. -/
structure ResultData where
  columns : List (String × Option String)
  rows : List (List (String × String))
  deriving DecidableEq

/-- Abstract outcome of the psycopg2 interaction inside
`PostgreSQL.run_query` (pg.py lines 170-203): either the execute/wait
completed, giving `cursor.description` (`none` when the statement
produced no result set) and the fetched rows, or one of the exception
classes handled by the `except` arms was raised. -/
inductive PgOutcome where
  | completed (description : Option (List (String × Nat))) (rows : List (List String))
  | ioError
  | databaseError (message : String)
  | interrupted
  deriving DecidableEq

/-- Build the row dicts: `dict(zip((c['name'] for c in columns), row))`. -/
def zipRows (names : List String) (rows : List (List String)) :
    List (List (String × String)) :=
  rows.map (fun r => names.zip r)

/-- `PostgreSQL.run_query` (pg.py lines 170-203), as a function of the
interaction outcome, returning the `(json_data, error)` pair.  The JSON
payload is kept structured (`ResultData`) rather than serialised. -/
def pgRunQuery (outcome : PgOutcome) : Option ResultData × Option String :=
  match outcome with
  | .completed (some description) rows =>
      let columns := description.map (fun i => (i.1, types_map i.2))
      let names := columns.map (·.1)
      (some { columns := columns, rows := zipRows names rows }, none)
  | .completed none _ => (none, some "Query completed but it returned no data.")
  | .ioError => (none, some "Query interrupted. Please retry.")
  | .databaseError message => (none, some message)
  | .interrupted => (none, some "Query cancelled by user.")

/-! ## Presto adapter (`src/redash/query_runner/presto.py`) -/

/-- The entries of the `PRESTO_TYPES_MAPPING` dict of presto.py
(lines 20-32). -/
def presto_types_entries : List (String × String) :=
  [("integer", TYPE_INTEGER), ("tinyint", TYPE_INTEGER),
   ("smallint", TYPE_INTEGER), ("long", TYPE_INTEGER),
   ("bigint", TYPE_INTEGER), ("float", TYPE_FLOAT),
   ("double", TYPE_FLOAT), ("boolean", TYPE_BOOLEAN),
   ("string", TYPE_STRING), ("varchar", TYPE_STRING),
   ("date", TYPE_DATE)]

/-- The lookup `PRESTO_TYPES_MAPPING.get(code, None)` used by presto.py
line 128: native type names absent from the dict map to `none`. -/
def PRESTO_TYPES_MAPPING (code : String) : Option String :=
  (presto_types_entries.find? (fun pr => pr.1 == code)).map (·.2)

/-- Abstract outcome of the pyhive interaction inside `Presto.run_query`
(presto.py lines 115-152).  For `DatabaseError`, `failureInfo` records
`db.message.get('failureInfo', ...)`: `none` when the key is absent
(the source then calls `.get('message')` on the set literal default,
raising `AttributeError`, so `run_query` does not return), and
`some m` when present, `m` being the optional inner message.  For the
final generic handler the source coerces a non-string `ex.message` with
`unicode(...)`; the outcome carries the resulting string. -/
inductive PrestoOutcome where
  | completed (description : List (String × String)) (rows : List (List String))
  | databaseError (failureInfo : Option (Option String)) (rawMessage : String)
  | interrupted
  | otherError (message : String)
  deriving DecidableEq

/-- `Presto.run_query` (presto.py lines 115-152).  Returns `none` when the
body raises out of the handlers instead of returning (the
`DatabaseError`-without-`failureInfo` arm), otherwise
`some (json_data, error)`. -/
def prestoRunQuery (outcome : PrestoOutcome) :
    Option (Option ResultData × Option String) :=
  match outcome with
  | .completed description rows =>
      let columns := description.map (fun i => (i.1, PRESTO_TYPES_MAPPING i.2))
      let names := columns.map (·.1)
      some (some { columns := columns, rows := zipRows names rows }, none)
  | .databaseError none _ => none
  | .databaseError (some none) rawMessage =>
      some (none, some ("Unspecified DatabaseError: " ++ rawMessage))
  | .databaseError (some (some message)) _ => some (none, some message)
  | .interrupted => some (none, some "Query cancelled by user.")
  | .otherError message => some (none, some message)

/-! ## Cassandra adapter (`src/redash/query_runner/cass.py`) -/

/-- Abstract outcome of the session interaction inside
`Cassandra.run_query` (cass.py lines 123-157): the only handled exception
is `KeyboardInterrupt`; anything else propagates, so only these two arms
return. -/
inductive CassOutcome where
  | completed (column_names : List String) (rows : List (List String))
  | interrupted
  deriving DecidableEq

/-- `Cassandra.run_query` (cass.py lines 123-157).  Every column is given
the literal type `'string'` (`map(lambda c: (c, 'string'), column_names)`,
line 145). -/
def cassRunQuery (outcome : CassOutcome) : Option ResultData × Option String :=
  match outcome with
  | .completed column_names rows =>
      let columns := column_names.map (fun c => (c, some TYPE_STRING))
      (some { columns := columns, rows := zipRows column_names rows }, none)
  | .interrupted => (none, some "Query cancelled by user.")

/-! ## Schedule predicate -/

/-- Schedule specification, the tagged variant the spec (section 9)
prescribes for the two string forms: an integer number of seconds
("interval") or a wall-clock "HH:MM" time ("exact-time"). -/
inductive Schedule where
  | interval (seconds : Nat)
  | exactTime (hour minute : Nat)
  deriving DecidableEq

/-- Modelled from the spec: failure backoff of the schedule predicate
(`redash/models.py` is absent from src/).  The spec text describes a
multiplicative backoff capped at 64, but the repository tests pin an
additive one — `test_backoff` requires schedule "3600" with 5 failures
and 7200 s elapsed to be due (additive: 3600 + 2^5 minutes = 5520 s
bound; multiplicative would give 115200 s), and
`test_failure_extends_schedule` requires schedule "60" with 4 failures
not due at 16 min but due at 17 min (additive bound 60 + 960 s = 17 min;
a multiplicative bound would be exactly 16 min).  The tests win: with
`failures > 0`, `2 ^ failures` minutes are added; with zero failures
nothing is added. -/
def backoffSecs (failures : Nat) : Int :=
  if failures = 0 then 0 else 60 * 2 ^ failures

/-- Modelled from the spec: the most recent occurrence of wall-clock time
`hour:minute` at or before `now` (today's occurrence if the time of day
of `now` has reached it, otherwise yesterday's). -/
def lastOccurrence (hour minute : Nat) (now : Int) : Int :=
  if (hour : Int) * 3600 + minute * 60 ≤ now % 86400 then
    now - now % 86400 + ((hour : Int) * 3600 + minute * 60)
  else now - now % 86400 + ((hour : Int) * 3600 + minute * 60) - 86400

/-- Modelled from the spec: the schedule predicate
`should_schedule_next(previous_iteration, now, schedule, failures)`
(spec section 4.1).  Interval form: due when the elapsed time has reached
the interval plus the failure backoff (see `backoffSecs` for the
test-pinned additive backoff).  Exact-time form: due when the previous
iteration lies strictly before the most recent occurrence of the
wall-clock time; failure backoff does not apply to exact-time schedules
(spec section 4.1). -/
def should_schedule_next (previous now : Int) (schedule : Schedule)
    (failures : Nat) : Bool :=
  match schedule with
  | .interval ttl => decide ((ttl : Int) + backoffSecs failures ≤ now - previous)
  | .exactTime hour minute => decide (previous < lastOccurrence hour minute now)

/-! ## Data model -/

/-- A stored query result (`QueryResult`): immutable once created. -/
structure QueryResult where
  id : Nat
  org_id : Nat
  data_source_id : Nat
  query_hash : Nat
  query_text : String
  data : String
  runtime : Int
  retrieved_at : Int
  deriving DecidableEq

/-- A query (`Query`).  The content hash is abstracted to a natural
number (the source uses a deterministic digest of the query text; only
equality of hashes matters to the claims). -/
structure Query where
  id : Nat
  org_id : Nat
  data_source_id : Nat
  query_hash : Nat
  query_text : String
  schedule : Option Schedule
  schedule_failures : Nat
  latest_query_data : Option QueryResult
  is_archived : Bool
  is_draft : Bool
  deriving DecidableEq

/-- Modelled from the spec: `Query.archive()` as far as scheduling is
concerned — sets the archived flag and clears the schedule
(`test_archive_query_sets_flag`, `test_removes_scheduling`; the
widget/alert cascade is outside the scheduling core). -/
def archive (q : Query) : Query :=
  { q with is_archived := true, schedule := none }

/-! ## Outdated query selector

Modelled from the spec (section 4.2) under the constraints the tests in
`src/tests/test_models.py` pin:

* only queries with a non-null schedule are candidates (spec also
  excludes archived and draft queries);
* candidates are scanned in ascending id order and the due ones are
  written into a dict keyed by `(query_hash, data_source_id)`, a later
  due write replacing an earlier one — `test_enqueues_query_only_once`
  requires the result for two identically-hashed due queries to be the
  later-created one, and `test_enqueues_only_for_relevant_data_source`
  requires each candidate to be judged with its own schedule and its own
  latest result, so the dict write happens per due candidate rather than
  once per group as the spec text suggests;
* the scheduled-executions tracker overrides the last-retrieved time of
  a query it knows (`test_outdated_queries_works_scheduled_queries_tracker`). -/

/-- Group key: `(query_hash, data_source_id)`. -/
def groupKey (q : Query) : Nat × Nat := (q.query_hash, q.data_source_id)

/-- The timestamp fed to the schedule predicate for `q`: the tracker's
enqueue time when present, else the latest result's `retrieved_at`, else
`now` (a query with no result yet is compared against `now` itself). -/
def queryRetrievedAt (q : Query) (now : Int) (executions : Nat → Option Int) :
    Int :=
  match executions q.id with
  | some t => t
  | none =>
      match q.latest_query_data with
      | some qr => qr.retrieved_at
      | none => now

/-- Whether a query is judged due by the selector. -/
def isDue (now : Int) (executions : Nat → Option Int) (q : Query) : Bool :=
  match q.schedule with
  | none => false
  | some s => should_schedule_next (queryRetrievedAt q now executions) now s
      q.schedule_failures

/-- Candidate filter of the selector: non-null schedule, not archived,
not draft. -/
def isCandidate (q : Query) : Bool :=
  q.schedule.isSome && !q.is_archived && !q.is_draft

/-- Dict write `table[key] = q`: replace the entry at `key` in place, or
append a new one. -/
def insertKey (table : List ((Nat × Nat) × Query)) (key : Nat × Nat)
    (q : Query) : List ((Nat × Nat) × Query) :=
  match table with
  | [] => [(key, q)]
  | (k, p) :: rest =>
      if k = key then (key, q) :: rest else (k, p) :: insertKey rest key q

/-- Dict lookup. -/
def lookupKey (table : List ((Nat × Nat) × Query)) (key : Nat × Nat) :
    Option Query :=
  match table with
  | [] => none
  | (k, p) :: rest => if k = key then some p else lookupKey rest key

/-- Id order on queries, the scan order of the selector. -/
def idLE (a b : Query) : Prop := a.id ≤ b.id

instance : DecidableRel idLE := fun a b => Nat.decLe a.id b.id

/-- One selector step: write a due candidate into the dict. -/
def selectStep (now : Int) (executions : Nat → Option Int)
    (table : List ((Nat × Nat) × Query)) (q : Query) :
    List ((Nat × Nat) × Query) :=
  if isDue now executions q then insertKey table (groupKey q) q else table

/-- The dict built by the selector over a given scan list. -/
def selectorTable (now : Int) (executions : Nat → Option Int)
    (scan : List Query) : List ((Nat × Nat) × Query) :=
  scan.foldl (selectStep now executions) []

/-- Modelled from the spec: `Query.outdated_queries()` (spec section
4.2), over an explicit list of all stored queries, the current time and
the scheduled-executions tracker. -/
def outdated_queries (qs : List Query) (now : Int)
    (executions : Nat → Option Int) : List Query :=
  let candidates := qs.filter isCandidate
  let ordered := List.insertionSort idLE candidates
  (selectorTable now executions ordered).map (·.2)

/-- An empty scheduled-executions tracker. -/
def noExecutions : Nat → Option Int := fun _ => none

/-! ## Result store -/

/-- The per-query update applied by `store_result`: matching queries get
the new result and a reset failure count, others are untouched. -/
def storeUpdate (qr : QueryResult) (org data_source_id query_hash : Nat)
    (q : Query) : Query :=
  if !q.is_archived && q.org_id = org && q.data_source_id = data_source_id
      && q.query_hash = query_hash then
    { q with latest_query_data := some qr, schedule_failures := 0 }
  else q

/-- Persistent state seen by the result store. -/
structure StoreState where
  queries : List Query
  results : List QueryResult
  next_result_id : Nat
  deriving DecidableEq

/-- Modelled from the spec: `QueryResult.store_result(org, data_source,
query_hash, query, data, run_time, retrieved_at)` (spec section 4.4).
Always inserts a fresh `QueryResult`; updates `latest_query_data` to it
and resets `failure_count` to 0 on every non-archived query of the org
whose `(data_source_id, query_hash)` matches; leaves every other query
untouched. -/
def store_result (st : StoreState) (org data_source_id query_hash : Nat)
    (query_text data : String) (run_time retrieved_at : Int) :
    StoreState × QueryResult :=
  let qr : QueryResult :=
    { id := st.next_result_id, org_id := org,
      data_source_id := data_source_id, query_hash := query_hash,
      query_text := query_text, data := data, runtime := run_time,
      retrieved_at := retrieved_at }
  ({ queries := st.queries.map (storeUpdate qr org data_source_id query_hash),
     results := qr :: st.results,
     next_result_id := st.next_result_id + 1 }, qr)

/-! ## Auxiliary definitions for the proofs -/

/-- The last element of a list satisfying a predicate, if any: the value
left in a dict cell after writing every satisfying element in list
order. -/
def lastP (p : Query → Bool) : List Query → Option Query
  | [] => none
  | q :: rest =>
      match lastP p rest with
      | some r => some r
      | none => if p q then some q else none

/-- Exactly one component of a `(data, error)` pair is `None`. -/
def exactlyOneNone (r : Option ResultData × Option String) : Prop :=
  (r.1.isSome = true ∧ r.2 = none) ∨ (r.1 = none ∧ r.2.isSome = true)

instance : IsTotal Query idLE := ⟨fun a b => Nat.le_total a.id b.id⟩

instance : IsTrans Query idLE := ⟨fun _ _ _ => Nat.le_trans⟩

/-- A sample stored result, retrieved at time 0. -/
def sampleResult : QueryResult :=
  { id := 1, org_id := 1, data_source_id := 1, query_hash := 5,
    query_text := "SELECT 1", data := "data", runtime := 1,
    retrieved_at := 0 }

/-- A sample query on schedule "60", last retrieved at time 0. -/
def sampleQueryA : Query :=
  { id := 1, org_id := 1, data_source_id := 1, query_hash := 5,
    query_text := "SELECT 1", schedule := some (Schedule.interval 60),
    schedule_failures := 0, latest_query_data := some sampleResult,
    is_archived := false, is_draft := false }

/-- A second sample query identical to `sampleQueryA` except for its
identifier: same data source, same content hash, same schedule. -/
def sampleQueryB : Query :=
  { sampleQueryA with id := 2 }

/-- A sample query with no schedule. -/
def sampleUnscheduled : Query :=
  { sampleQueryA with id := 3, schedule := none }

/-- A sample store state: two queries sharing hash 5 on data source 1,
one query with a different hash, one with a different data source. -/
def sampleStore : StoreState :=
  { queries := [sampleQueryA, sampleQueryB,
      { sampleQueryA with id := 3, query_hash := 9 },
      { sampleQueryA with id := 4, data_source_id := 2 }],
    results := [], next_result_id := 7 }

/-! ## Helper lemmas about the selector dict -/

theorem mem_insertKey {table : List ((Nat × Nat) × Query)} {key : Nat × Nat}
    {q : Query} {pr : (Nat × Nat) × Query} (h : pr ∈ insertKey table key q) :
    pr = (key, q) ∨ pr ∈ table := by
  induction table with
  | nil => simpa [insertKey] using h
  | cons hd tl ih =>
      obtain ⟨k, p⟩ := hd
      by_cases hk : k = key
      · subst hk
        rw [insertKey, if_pos rfl] at h
        rcases List.mem_cons.mp h with h1 | h1
        · exact Or.inl h1
        · exact Or.inr (List.mem_cons_of_mem _ h1)
      · rw [insertKey, if_neg hk] at h
        rcases List.mem_cons.mp h with h1 | h1
        · exact Or.inr (h1 ▸ List.mem_cons_self _ _)
        · rcases ih h1 with h2 | h2
          · exact Or.inl h2
          · exact Or.inr (List.mem_cons_of_mem _ h2)

theorem lookupKey_insertKey_self (table : List ((Nat × Nat) × Query))
    (key : Nat × Nat) (q : Query) :
    lookupKey (insertKey table key q) key = some q := by
  induction table with
  | nil => simp [insertKey, lookupKey]
  | cons hd tl ih =>
      obtain ⟨k, p⟩ := hd
      by_cases hk : k = key
      · subst hk
        rw [insertKey, if_pos rfl, lookupKey, if_pos rfl]
      · rw [insertKey, if_neg hk, lookupKey, if_neg hk, ih]

theorem lookupKey_insertKey_ne {k' key : Nat × Nat} (hne : k' ≠ key)
    (table : List ((Nat × Nat) × Query)) (q : Query) :
    lookupKey (insertKey table key q) k' = lookupKey table k' := by
  induction table with
  | nil => simp [insertKey, lookupKey, Ne.symm hne]
  | cons hd tl ih =>
      obtain ⟨k, p⟩ := hd
      by_cases hk : k = key
      · subst hk
        rw [insertKey, if_pos rfl, lookupKey, if_neg (Ne.symm hne),
          lookupKey, if_neg (Ne.symm hne)]
      · by_cases hk' : k = k'
        · subst hk'
          rw [insertKey, if_neg hk, lookupKey, if_pos rfl, lookupKey, if_pos rfl]
        · rw [insertKey, if_neg hk, lookupKey, if_neg hk', lookupKey,
            if_neg hk', ih]

theorem lookupKey_mem {table : List ((Nat × Nat) × Query)} {key : Nat × Nat}
    {q : Query} (h : lookupKey table key = some q) : (key, q) ∈ table := by
  induction table with
  | nil => simp [lookupKey] at h
  | cons hd tl ih =>
      obtain ⟨k, p⟩ := hd
      by_cases hk : k = key
      · subst hk
        rw [lookupKey, if_pos rfl] at h
        exact (Option.some.inj h) ▸ List.mem_cons_self _ _
      · rw [lookupKey, if_neg hk] at h
        exact List.mem_cons_of_mem _ (ih h)

theorem keys_insertKey (table : List ((Nat × Nat) × Query)) (key : Nat × Nat)
    (q : Query) :
    (insertKey table key q).map (·.1) =
      if key ∈ table.map (·.1) then table.map (·.1)
      else table.map (·.1) ++ [key] := by
  induction table with
  | nil => simp [insertKey]
  | cons hd tl ih =>
      obtain ⟨k, p⟩ := hd
      by_cases hk : k = key
      · subst hk
        rw [insertKey, if_pos rfl]
        simp
      · rw [insertKey, if_neg hk]
        by_cases hmem : key ∈ tl.map (·.1)
        · simp only [List.map_cons, ih, if_pos hmem]
          rw [if_pos (List.mem_cons_of_mem _ hmem)]
        · simp only [List.map_cons, ih, if_neg hmem]
          rw [if_neg]
          · simp
          · intro hcon
            rcases List.mem_cons.mp hcon with h1 | h1
            · exact hk h1.symm
            · exact hmem h1

theorem nodup_keys_insertKey {table : List ((Nat × Nat) × Query)}
    (h : (table.map (·.1)).Nodup) (key : Nat × Nat) (q : Query) :
    ((insertKey table key q).map (·.1)).Nodup := by
  rw [keys_insertKey]
  by_cases hmem : key ∈ table.map (·.1)
  · rw [if_pos hmem]; exact h
  · rw [if_neg hmem]
    refine List.Nodup.append h (List.nodup_singleton key) ?_
    intro a ha hb
    rw [List.mem_singleton] at hb
    exact hmem (hb ▸ ha)

/-! ## Helper lemmas about lastP -/

theorem lastP_mem {p : Query → Bool} {l : List Query} {q : Query}
    (h : lastP p l = some q) : q ∈ l ∧ p q = true := by
  induction l with
  | nil => simp [lastP] at h
  | cons hd tl ih =>
      rw [lastP] at h
      cases htl : lastP p tl with
      | some r =>
          rw [htl] at h
          obtain rfl : r = q := Option.some.inj h
          exact ⟨List.mem_cons_of_mem _ (ih htl).1, (ih htl).2⟩
      | none =>
          rw [htl] at h
          by_cases hp : p hd = true
          · rw [if_pos hp] at h
            obtain rfl : hd = q := Option.some.inj h
            exact ⟨List.mem_cons_self _ _, hp⟩
          · rw [if_neg hp] at h
            exact absurd h (by simp)

theorem lastP_none {p : Query → Bool} {l : List Query}
    (h : lastP p l = none) : ∀ x ∈ l, p x = false := by
  induction l with
  | nil => intro x hx; simp at hx
  | cons hd tl ih =>
      rw [lastP] at h
      cases htl : lastP p tl with
      | some r => rw [htl] at h; exact absurd h (by simp)
      | none =>
          rw [htl] at h
          intro x hx
          rcases List.mem_cons.mp hx with rfl | hx'
          · by_cases hp : p x = true
            · rw [if_pos hp] at h; exact absurd h (by simp)
            · simpa using hp
          · exact ih htl x hx'

theorem lastP_isSome {p : Query → Bool} {l : List Query} {x : Query}
    (hx : x ∈ l) (hp : p x = true) : ∃ r, lastP p l = some r := by
  cases h : lastP p l with
  | some r => exact ⟨r, rfl⟩
  | none => exact absurd (lastP_none h x hx) (by simp [hp])

theorem lastP_sorted_max {p : Query → Bool} {l : List Query}
    (hs : List.Sorted idLE l) {q : Query} (h : lastP p l = some q) :
    ∀ x ∈ l, p x = true → x.id ≤ q.id := by
  induction l with
  | nil => simp [lastP] at h
  | cons hd tl ih =>
      rw [List.sorted_cons] at hs
      intro x hx hpx
      rw [lastP] at h
      cases htl : lastP p tl with
      | some r =>
          rw [htl] at h
          obtain rfl : r = q := Option.some.inj h
          rcases List.mem_cons.mp hx with rfl | hx'
          · exact hs.1 _ (lastP_mem htl).1
          · exact ih hs.2 htl x hx' hpx
      | none =>
          rw [htl] at h
          by_cases hp : p hd = true
          · rw [if_pos hp] at h
            obtain rfl : hd = q := Option.some.inj h
            rcases List.mem_cons.mp hx with rfl | hx'
            · exact Nat.le_refl _
            · exact absurd hpx (by simp [lastP_none htl x hx'])
          · rw [if_neg hp] at h
            exact absurd h (by simp)

/-! ## Helper lemmas about the selector fold -/

theorem lookupKey_foldl (now : Int) (ex : Nat → Option Int) (k : Nat × Nat)
    (scan : List Query) :
    ∀ table, lookupKey (List.foldl (selectStep now ex) table scan) k =
      match lastP (fun x => decide (groupKey x = k) && isDue now ex x) scan with
      | some r => some r
      | none => lookupKey table k := by
  induction scan with
  | nil => intro table; rfl
  | cons q rest ih =>
      intro table
      rw [List.foldl_cons, ih]
      cases hr : lastP (fun x => decide (groupKey x = k) && isDue now ex x)
          rest with
      | some r => simp [lastP, hr]
      | none =>
          simp only [lastP, hr]
          by_cases hd : isDue now ex q = true
          · by_cases hk : groupKey q = k
            · rw [if_pos (by simp [hk, hd])]
              rw [selectStep, if_pos hd, hk, lookupKey_insertKey_self]
            · rw [if_neg (by simp [hk])]
              rw [selectStep, if_pos hd,
                lookupKey_insertKey_ne (fun hkk => hk hkk.symm)]
          · rw [if_neg (by simp [hd])]
            rw [selectStep, if_neg hd]

theorem mem_selectorTable {now : Int} {ex : Nat → Option Int}
    {scan : List Query} {pr : (Nat × Nat) × Query}
    (h : pr ∈ selectorTable now ex scan) :
    pr.1 = groupKey pr.2 ∧ pr.2 ∈ scan ∧ isDue now ex pr.2 = true := by
  suffices h' : ∀ table, pr ∈ List.foldl (selectStep now ex) table scan →
      pr ∈ table ∨
        (pr.1 = groupKey pr.2 ∧ pr.2 ∈ scan ∧ isDue now ex pr.2 = true) by
    rcases h' [] h with h0 | h0
    · simp at h0
    · exact h0
  clear h
  induction scan with
  | nil => intro table h0; exact Or.inl h0
  | cons q rest ih =>
      intro table h0
      rw [List.foldl_cons] at h0
      rcases ih (selectStep now ex table q) h0 with h1 | h1
      · rw [selectStep] at h1
        by_cases hd : isDue now ex q = true
        · rw [if_pos hd] at h1
          rcases mem_insertKey h1 with h2 | h2
          · subst h2
            exact Or.inr ⟨rfl, List.mem_cons_self _ _, hd⟩
          · exact Or.inl h2
        · rw [if_neg hd] at h1
          exact Or.inl h1
      · exact Or.inr ⟨h1.1, List.mem_cons_of_mem _ h1.2.1, h1.2.2⟩

theorem nodup_keys_selectorTable (now : Int) (ex : Nat → Option Int)
    (scan : List Query) :
    ((selectorTable now ex scan).map (·.1)).Nodup := by
  suffices h : ∀ table, (table.map (·.1)).Nodup →
      ((List.foldl (selectStep now ex) table scan).map (·.1)).Nodup by
    exact h [] (by simp)
  induction scan with
  | nil => intro table ht; exact ht
  | cons q rest ih =>
      intro table ht
      rw [List.foldl_cons]
      refine ih _ ?_
      rw [selectStep]
      by_cases hd : isDue now ex q = true
      · rw [if_pos hd]; exact nodup_keys_insertKey ht _ _
      · rw [if_neg hd]; exact ht

theorem countP_keys {table : List ((Nat × Nat) × Query)} {k : Nat × Nat}
    {q : Query} (hnd : (table.map (·.1)).Nodup) (hmem : (k, q) ∈ table) :
    table.countP (fun pr => decide (pr.1 = k)) = 1 := by
  induction table with
  | nil => simp at hmem
  | cons hd tl ih =>
      obtain ⟨k', p⟩ := hd
      rw [List.map_cons, List.nodup_cons] at hnd
      by_cases hk : k' = k
      · subst hk
        rw [List.countP_cons]
        have hzero : tl.countP (fun pr => decide (pr.1 = k')) = 0 := by
          rw [List.countP_eq_zero]
          intro pr hpr
          simp only [decide_eq_true_eq]
          intro hcon
          exact hnd.1 (hcon ▸ List.mem_map_of_mem (·.1) hpr)
        simp [hzero]
      · rcases List.mem_cons.mp hmem with h1 | h1
        · exact absurd (congrArg Prod.fst h1).symm hk
        · rw [List.countP_cons]
          simp only [decide_eq_true_eq]
          rw [if_neg hk, ih hnd.2 h1]

theorem mem_outdated {qs : List Query} {now : Int} {ex : Nat → Option Int}
    {x : Query} (h : x ∈ outdated_queries qs now ex) :
    x ∈ qs ∧ isCandidate x = true ∧ isDue now ex x = true := by
  rw [outdated_queries] at h
  rcases List.mem_map.mp h with ⟨pr, hpr, rfl⟩
  have h1 := mem_selectorTable hpr
  have h2 : pr.2 ∈ List.insertionSort idLE (qs.filter isCandidate) := h1.2.1
  rw [List.mem_insertionSort] at h2
  exact ⟨(List.mem_filter.mp h2).1, (List.mem_filter.mp h2).2, h1.2.2⟩

theorem selector_lookup_exists {qs : List Query} {now : Int}
    {ex : Nat → Option Int} {q : Query} (hq : q ∈ qs)
    (hc : isCandidate q = true) (hd : isDue now ex q = true) :
    ∃ rep, lookupKey (selectorTable now ex
        (List.insertionSort idLE (qs.filter isCandidate))) (groupKey q) =
      some rep := by
  have hmemf : q ∈ qs.filter isCandidate := List.mem_filter.mpr ⟨hq, hc⟩
  have hmemo : q ∈ List.insertionSort idLE (qs.filter isCandidate) :=
    (List.mem_insertionSort idLE).mpr hmemf
  have hp : (fun x => decide (groupKey x = groupKey q) && isDue now ex x) q
      = true := by simp [hd]
  obtain ⟨r, hr⟩ := @lastP_isSome
    (fun x => decide (groupKey x = groupKey q) && isDue now ex x)
    (List.insertionSort idLE (qs.filter isCandidate)) q hmemo hp
  refine ⟨r, ?_⟩
  have := lookupKey_foldl now ex (groupKey q)
    (List.insertionSort idLE (qs.filter isCandidate)) []
  rw [selectorTable, this, hr]

theorem countP_outdated_eq_one {qs : List Query} {now : Int}
    {ex : Nat → Option Int} {k : Nat × Nat} {rep : Query}
    (hmem : (k, rep) ∈ selectorTable now ex
      (List.insertionSort idLE (qs.filter isCandidate))) :
    (outdated_queries qs now ex).countP (fun x => decide (groupKey x = k))
      = 1 := by
  rw [outdated_queries, List.countP_map]
  have hcong : ∀ pr ∈ selectorTable now ex
      (List.insertionSort idLE (qs.filter isCandidate)),
      ((fun x => decide (groupKey x = k)) ∘ (·.2)) pr = true ↔
        (fun pr : (Nat × Nat) × Query => decide (pr.1 = k)) pr = true := by
    intro pr hpr
    have h1 := (mem_selectorTable hpr).1
    simp [Function.comp, h1]
  rw [List.countP_congr hcong]
  exact countP_keys (nodup_keys_selectorTable now ex _) hmem

theorem lookupKey_selectorTable (now : Int) (ex : Nat → Option Int)
    (k : Nat × Nat) (scan : List Query) :
    lookupKey (selectorTable now ex scan) k =
      lastP (fun x => decide (groupKey x = k) && isDue now ex x) scan := by
  rw [selectorTable, lookupKey_foldl]
  cases lastP (fun x => decide (groupKey x = k) && isDue now ex x) scan with
  | some r => rfl
  | none => rfl

/-! ## Helper lemmas about the type maps -/

theorem types_map_portable (code : Nat) (t : String)
    (h : types_map code = some t) : t ∈ PORTABLE_TYPES := by
  rw [types_map] at h
  cases hf : types_map_entries.find? (fun pr => pr.1 == code) with
  | none => rw [hf] at h; simp at h
  | some pr =>
      rw [hf] at h
      obtain rfl : pr.2 = t := by simpa using h
      have hmem := List.mem_of_find?_eq_some hf
      rw [types_map_entries] at hmem
      simp only [List.mem_cons, List.not_mem_nil, or_false] at hmem
      rcases hmem with rfl|rfl|rfl|rfl|rfl|rfl|rfl|rfl|rfl|rfl|rfl|rfl|rfl|rfl|rfl <;>
        simp [PORTABLE_TYPES]

theorem presto_map_portable (code : String) (t : String)
    (h : PRESTO_TYPES_MAPPING code = some t) : t ∈ PORTABLE_TYPES := by
  rw [PRESTO_TYPES_MAPPING] at h
  cases hf : presto_types_entries.find? (fun pr => pr.1 == code) with
  | none => rw [hf] at h; simp at h
  | some pr =>
      rw [hf] at h
      obtain rfl : pr.2 = t := by simpa using h
      have hmem := List.mem_of_find?_eq_some hf
      rw [presto_types_entries] at hmem
      simp only [List.mem_cons, List.not_mem_nil, or_false] at hmem
      rcases hmem with rfl|rfl|rfl|rfl|rfl|rfl|rfl|rfl|rfl|rfl|rfl <;>
        simp [PORTABLE_TYPES]

/-! ## Claims -/

/-- Claim C1, counterexample to the claim as stated.  The claim asserts
that for schedule "3600" with failure_count 5 and 7200 seconds elapsed
since the last run, should_schedule_next returns false (reading the
backoff as a 32-fold multiplication of the interval).  It returns true,
exactly as the repository test ShouldScheduleNextTest.test_backoff
asserts: the backoff is additive, 2 ^ 5 minutes on top of the 3600
second interval, so the bound is 5520 seconds and 7200 exceeds it. -/
theorem C1_counterexample :
    should_schedule_next 0 7200 (Schedule.interval 3600) 5 = true := by
  decide

/-- Claim C1 (amended): for an interval schedule the failure backoff is
additive, not multiplicative.  With failure_count > 0 the predicate is
due exactly when the elapsed time reaches the interval plus
2 ^ failure_count minutes (no cap); with failure_count 0 nothing is
added.  Concretely, for schedule "3600" and 7200 seconds elapsed the
predicate returns true at failure_count 5, true at failure_count 0, and
false at failure_count 10. -/
theorem C1_interval_backoff (previous now : Int) (ttl failures : Nat)
    (hf : 0 < failures) :
    (should_schedule_next previous now (Schedule.interval ttl) failures
        = true ↔ (ttl : Int) + 60 * 2 ^ failures ≤ now - previous) ∧
    should_schedule_next 0 7200 (Schedule.interval 3600) 5 = true ∧
    should_schedule_next 0 7200 (Schedule.interval 3600) 0 = true ∧
    should_schedule_next 0 7200 (Schedule.interval 3600) 10 = false := by
  refine ⟨?_, by decide, by decide, by decide⟩
  rw [should_schedule_next, backoffSecs, if_neg (Nat.pos_iff_ne_zero.mp hf)]
  simp

/-- Witness for C1_interval_backoff at failure_count 5. -/
theorem C1_interval_backoff_witness :
    (should_schedule_next 0 7200 (Schedule.interval 3600) 5 = true ↔
      (3600 : Int) + 60 * 2 ^ 5 ≤ 7200 - 0) ∧
    should_schedule_next 0 7200 (Schedule.interval 3600) 5 = true ∧
    should_schedule_next 0 7200 (Schedule.interval 3600) 0 = true ∧
    should_schedule_next 0 7200 (Schedule.interval 3600) 10 = false :=
  C1_interval_backoff 0 7200 3600 5 (by decide)

/-- Claim C7: for an exact-time schedule "HH:MM", the predicate is due
exactly when last_run_at lies strictly before the most recent occurrence
of that wall-clock time at or before now; `lastOccurrence` is
characterised as the unique time carrying the scheduled time of day that
is at most `now` and less than a day before it.  Concrete scenario with
the epoch placed at 2015-10-15 00:00 UTC: schedule "23:00" evaluated at
now = 2015-10-16 20:10 (second 159000) with last_run_at =
2015-10-15 23:07 (second 83220) is not due. -/
theorem C7_exact_time (previous now : Int) (hour minute failures : Nat)
    (hh : hour < 24) (hm : minute < 60) :
    (should_schedule_next previous now (Schedule.exactTime hour minute)
        failures = true ↔ previous < lastOccurrence hour minute now) ∧
    lastOccurrence hour minute now % 86400 =
      (hour : Int) * 3600 + (minute : Int) * 60 ∧
    lastOccurrence hour minute now ≤ now ∧
    now - lastOccurrence hour minute now < 86400 ∧
    should_schedule_next 83220 159000 (Schedule.exactTime 23 0) 0
      = false := by
  refine ⟨?_, ?_, ?_, ?_, by decide⟩
  · rw [should_schedule_next]
    simp
  · rw [lastOccurrence]
    split_ifs with hs <;> omega
  · rw [lastOccurrence]
    split_ifs with hs <;> omega
  · rw [lastOccurrence]
    split_ifs with hs <;> omega

/-- Witness for C7_exact_time at the concrete scenario of the claim. -/
theorem C7_exact_time_witness :
    (should_schedule_next 83220 159000 (Schedule.exactTime 23 0) 0 = true ↔
      (83220 : Int) < lastOccurrence 23 0 159000) ∧
    lastOccurrence 23 0 159000 % 86400 =
      (23 : Int) * 3600 + (0 : Int) * 60 ∧
    lastOccurrence 23 0 159000 ≤ 159000 ∧
    (159000 : Int) - lastOccurrence 23 0 159000 < 86400 ∧
    should_schedule_next 83220 159000 (Schedule.exactTime 23 0) 0 = false :=
  C7_exact_time 83220 159000 23 0 0 (by decide) (by decide)

/-- Claim C8: for interval schedules the predicate is monotone in
elapsed time — with the schedule, the failure count and last_run_at
fixed, once due it stays due at every later time. -/
theorem C8_interval_monotone (previous t u : Int) (ttl failures : Nat)
    (hle : t ≤ u)
    (h : should_schedule_next previous t (Schedule.interval ttl) failures
      = true) :
    should_schedule_next previous u (Schedule.interval ttl) failures
      = true := by
  simp only [should_schedule_next, decide_eq_true_eq] at h ⊢
  exact le_trans h (sub_le_sub_right hle previous)

/-- Witness for C8_interval_monotone: due at 7200 s, still due at
10000 s. -/
theorem C8_interval_monotone_witness :
    should_schedule_next 0 10000 (Schedule.interval 3600) 0 = true :=
  C8_interval_monotone 0 7200 10000 3600 0 (by decide) (by decide)

/-- Claim C2, counterexample to the claim as stated.  The claim asserts
the representative of a due group is the member with the LOWEST
identifier.  With two identical due queries of ids 1 and 2 sharing
(data_source_id, content hash), the selector emits the id-2 query, as
the repository test
QueryOutdatedQueriesTest.test_enqueues_query_only_once asserts
(it expects exactly the later-created query2). -/
theorem C2_counterexample :
    outdated_queries [sampleQueryA, sampleQueryB] 7200 noExecutions =
      [sampleQueryB] ∧
    isCandidate sampleQueryA = true ∧
    isDue 7200 noExecutions sampleQueryA = true ∧
    groupKey sampleQueryA = groupKey sampleQueryB ∧
    sampleQueryA.id < sampleQueryB.id := by
  refine ⟨by decide, by decide, by decide, by decide, by decide⟩

/-- Claim C2 (amended): for every due group of queries sharing the same
(data_source_id, content_hash), outdated_queries emits exactly one
representative query, and the representative is the query with the
HIGHEST identifier among the group's due members: the scan runs in
ascending id order and each due member overwrites the group's dict
slot. -/
theorem C2_representative {qs : List Query} {now : Int}
    {ex : Nat → Option Int} {q : Query} (hq : q ∈ qs)
    (hc : isCandidate q = true) (hd : isDue now ex q = true) :
    ∃ rep, rep ∈ outdated_queries qs now ex ∧ rep ∈ qs ∧
      isCandidate rep = true ∧ isDue now ex rep = true ∧
      groupKey rep = groupKey q ∧
      (∀ x ∈ qs, isCandidate x = true → isDue now ex x = true →
        groupKey x = groupKey q → x.id ≤ rep.id) ∧
      (outdated_queries qs now ex).countP
        (fun x => decide (groupKey x = groupKey q)) = 1 := by
  obtain ⟨rep, hrep⟩ := selector_lookup_exists hq hc hd
  have htab := lookupKey_mem hrep
  have hprops := mem_selectorTable htab
  have hout : rep ∈ outdated_queries qs now ex := by
    rw [outdated_queries]
    exact List.mem_map.mpr ⟨(groupKey q, rep), htab, rfl⟩
  have hordmem : rep ∈ List.insertionSort idLE (qs.filter isCandidate) :=
    hprops.2.1
  have hfilt := List.mem_filter.mp ((List.mem_insertionSort idLE).mp hordmem)
  have hkey : groupKey rep = groupKey q := hprops.1.symm
  have hlast : lastP
      (fun x => decide (groupKey x = groupKey q) && isDue now ex x)
      (List.insertionSort idLE (qs.filter isCandidate)) = some rep := by
    rw [← lookupKey_selectorTable]
    exact hrep
  have hsorted : List.Sorted idLE
      (List.insertionSort idLE (qs.filter isCandidate)) :=
    List.sorted_insertionSort idLE (qs.filter isCandidate)
  refine ⟨rep, hout, hfilt.1, hfilt.2, hprops.2.2, hkey, ?_, ?_⟩
  · intro x hx hcx hdx hkx
    refine lastP_sorted_max hsorted hlast x ?_ ?_
    · exact (List.mem_insertionSort idLE).mpr (List.mem_filter.mpr ⟨hx, hcx⟩)
    · simp [hkx, hdx]
  · exact countP_outdated_eq_one htab

/-- Witness for C2_representative on the two-query sample state. -/
theorem C2_representative_witness :
    (outdated_queries [sampleQueryA, sampleQueryB] 7200 noExecutions).countP
      (fun x => decide (groupKey x = groupKey sampleQueryA)) = 1 := by
  obtain ⟨rep, h⟩ := C2_representative
    (show sampleQueryA ∈ [sampleQueryA, sampleQueryB] by decide)
    (show isCandidate sampleQueryA = true by decide)
    (show isDue 7200 noExecutions sampleQueryA = true by decide)
  exact h.2.2.2.2.2.2

/-- Claim C3: two candidate queries with identical
(data_source_id, content_hash), schedule "60", both due, yield exactly
one entry for that group key in outdated_queries — never zero and never
two. -/
theorem C3_dedup {qs : List Query} {now : Int} {ex : Nat → Option Int}
    {q1 q2 : Query} (h1 : q1 ∈ qs) (h2 : q2 ∈ qs)
    (hkey : groupKey q1 = groupKey q2)
    (hs1 : q1.schedule = some (Schedule.interval 60))
    (hs2 : q2.schedule = some (Schedule.interval 60))
    (ha1 : q1.is_archived = false) (ha2 : q2.is_archived = false)
    (hdr1 : q1.is_draft = false) (hdr2 : q2.is_draft = false)
    (hd1 : isDue now ex q1 = true) (hd2 : isDue now ex q2 = true) :
    (outdated_queries qs now ex).countP
      (fun x => decide (groupKey x = groupKey q1)) = 1 := by
  have hc1 : isCandidate q1 = true := by
    rw [isCandidate, hs1]
    simp [ha1, hdr1]
  obtain ⟨rep, hrep⟩ := selector_lookup_exists h1 hc1 hd1
  exact countP_outdated_eq_one (lookupKey_mem hrep)

/-- Witness for C3_dedup on the two-query sample state. -/
theorem C3_dedup_witness :
    (outdated_queries [sampleQueryA, sampleQueryB] 7200 noExecutions).countP
      (fun x => decide (groupKey x = groupKey sampleQueryB)) = 1 :=
  C3_dedup (show sampleQueryB ∈ [sampleQueryA, sampleQueryB] by decide)
    (show sampleQueryA ∈ [sampleQueryA, sampleQueryB] by decide)
    (by decide) (by decide) (by decide) (by decide) (by decide)
    (by decide) (by decide)
    (show isDue 7200 noExecutions sampleQueryB = true by decide)
    (show isDue 7200 noExecutions sampleQueryA = true by decide)

/-- Claim C5: after archive(), the schedule of the query is null and the
query never again appears in outdated_queries, whatever the state of the
store, the current time or the tracker — stated for a query that was
previously due (a member of a previous outdated_queries result). -/
theorem C5_archive_excludes (q : Query) (qs0 : List Query) (now0 : Int)
    (ex0 : Nat → Option Int) (hprev : q ∈ outdated_queries qs0 now0 ex0)
    (qs : List Query) (now : Int) (ex : Nat → Option Int) :
    (archive q).schedule = none ∧ archive q ∉ outdated_queries qs now ex := by
  refine ⟨rfl, ?_⟩
  intro hmem
  have h1 := (mem_outdated hmem).2.1
  simp [isCandidate, archive] at h1

/-- Witness for C5_archive_excludes: sampleQueryA is due and selected,
and after archiving it is never selected again, even from a state that
still contains it. -/
theorem C5_archive_excludes_witness :
    (archive sampleQueryA).schedule = none ∧
    archive sampleQueryA ∉ outdated_queries
      [archive sampleQueryA, sampleQueryB] 7200 noExecutions :=
  C5_archive_excludes sampleQueryA [sampleQueryA] 7200 noExecutions
    (by decide) [archive sampleQueryA, sampleQueryB] 7200 noExecutions

/-- Claim C6: a query whose schedule is null is never contained in
outdated_queries, regardless of its last run time, failure count or any
other state. -/
theorem C6_null_schedule_never_outdated (q : Query) (qs : List Query)
    (now : Int) (ex : Nat → Option Int) (hnull : q.schedule = none) :
    q ∉ outdated_queries qs now ex := by
  intro hmem
  have h1 := (mem_outdated hmem).2.1
  rw [isCandidate, hnull] at h1
  simp at h1

/-- Witness for C6_null_schedule_never_outdated on a concrete state
containing the unscheduled query. -/
theorem C6_null_schedule_never_outdated_witness :
    sampleUnscheduled ∉ outdated_queries
      [sampleQueryA, sampleUnscheduled] 7200 noExecutions :=
  C6_null_schedule_never_outdated sampleUnscheduled
    [sampleQueryA, sampleUnscheduled] 7200 noExecutions rfl

/-- Claim C4: store_result with org, data source and content hash sets
latest_query_data to the newly created QueryResult on every non-archived
query of the org whose (data_source_id, content_hash) matches, resetting
its failure count to 0, and leaves every query with a different content
hash or a different data source unchanged.  The updated state is the
pointwise image of the old query list under `storeUpdate`. -/
theorem C4_store_result_fanout (st : StoreState)
    (org data_source_id query_hash : Nat) (query_text data : String)
    (run_time retrieved_at : Int) (qr : QueryResult)
    (hqr : qr = (store_result st org data_source_id query_hash query_text
      data run_time retrieved_at).2) :
    (store_result st org data_source_id query_hash query_text data run_time
        retrieved_at).1.queries =
      st.queries.map (storeUpdate qr org data_source_id query_hash) ∧
    (∀ q : Query, q.is_archived = false → q.org_id = org →
      q.data_source_id = data_source_id → q.query_hash = query_hash →
      storeUpdate qr org data_source_id query_hash q =
        { q with latest_query_data := some qr, schedule_failures := 0 }) ∧
    (∀ q : Query,
      q.query_hash ≠ query_hash ∨ q.data_source_id ≠ data_source_id →
      storeUpdate qr org data_source_id query_hash q = q) := by
  subst hqr
  refine ⟨rfl, ?_, ?_⟩
  · intro q h1 h2 h3 h4
    rw [storeUpdate, if_pos]
    simp [h1, h2, h3, h4]
  · intro q h
    rw [storeUpdate, if_neg]
    rcases h with h | h <;> simp [h]

/-- Witness for C4_store_result_fanout on the sample store: the matching
query is rewired to the new result with its failure count reset, the
query with a different hash is untouched. -/
theorem C4_store_result_fanout_witness :
    ((store_result sampleStore 1 1 5 "q" "d" 123 100).1.queries =
      sampleStore.queries.map
        (storeUpdate (store_result sampleStore 1 1 5 "q" "d" 123 100).2
          1 1 5)) ∧
    storeUpdate (store_result sampleStore 1 1 5 "q" "d" 123 100).2 1 1 5
        sampleQueryA =
      { sampleQueryA with
          latest_query_data :=
            some (store_result sampleStore 1 1 5 "q" "d" 123 100).2,
          schedule_failures := 0 } ∧
    storeUpdate (store_result sampleStore 1 1 5 "q" "d" 123 100).2 1 1 5
        { sampleQueryA with id := 3, query_hash := 9 } =
      { sampleQueryA with id := 3, query_hash := 9 } := by
  have h := C4_store_result_fanout sampleStore 1 1 5 "q" "d" 123 100
    ((store_result sampleStore 1 1 5 "q" "d" 123 100).2) rfl
  exact ⟨h.1, h.2.1 sampleQueryA rfl rfl rfl rfl,
    h.2.2 { sampleQueryA with id := 3, query_hash := 9 }
      (Or.inl (by decide))⟩

/-- Claim C9, counterexample to the claim as stated.  The claim asserts
that every backend-native type code appearing in a result is mapped by
the adapter's type map to one of the six portable types.  PostgreSQL
oid 25 (the text type) is absent from types_map, so the lookup
`types_map.get(25, None)` in pg.py line 181 produces `None`, which is
not one of the six: a result with a text column crosses into the core
with no portable type. -/
theorem C9_counterexample :
    (pgRunQuery (PgOutcome.completed (some [("name", 25)]) [])).1 =
      some { columns := [("name", none)], rows := [] } ∧
    types_map 25 = none ∧
    (none : Option String) ∉ PORTABLE_TYPES.map some := by
  refine ⟨rfl, rfl, ?_⟩
  simp [PORTABLE_TYPES]

/-- Claim C9 (amended): every type value present in an adapter's type
map is one of the six portable types, and every column type produced by
a run_query is either such a portable type or `none` (the `.get`
default for native codes absent from the map); the Cassandra adapter
always produces the portable type string. -/
theorem C9_types_portable :
    (∀ code t, types_map code = some t → t ∈ PORTABLE_TYPES) ∧
    (∀ code t, PRESTO_TYPES_MAPPING code = some t → t ∈ PORTABLE_TYPES) ∧
    (∀ o d, (pgRunQuery o).1 = some d → ∀ pr ∈ d.columns,
      pr.2 = none ∨ ∃ t, pr.2 = some t ∧ t ∈ PORTABLE_TYPES) ∧
    (∀ o r d, prestoRunQuery o = some r → r.1 = some d → ∀ pr ∈ d.columns,
      pr.2 = none ∨ ∃ t, pr.2 = some t ∧ t ∈ PORTABLE_TYPES) ∧
    (∀ o d, (cassRunQuery o).1 = some d → ∀ pr ∈ d.columns,
      pr.2 = some TYPE_STRING ∧ TYPE_STRING ∈ PORTABLE_TYPES) := by
  refine ⟨types_map_portable, presto_map_portable, ?_, ?_, ?_⟩
  · intro o d hd pr hpr
    cases o with
    | completed desc rows =>
        cases desc with
        | some l =>
            obtain rfl : _ = d := Option.some.inj hd
            rcases List.mem_map.mp hpr with ⟨i, hi, rfl⟩
            cases hmap : types_map i.2 with
            | none => left; simp [hmap]
            | some t =>
                right
                exact ⟨t, by simp [hmap], types_map_portable i.2 t hmap⟩
        | none => exact absurd hd (by simp [pgRunQuery])
    | ioError => exact absurd hd (by simp [pgRunQuery])
    | databaseError m => exact absurd hd (by simp [pgRunQuery])
    | interrupted => exact absurd hd (by simp [pgRunQuery])
  · intro o r d hr hd pr hpr
    cases o with
    | completed desc rows =>
        obtain rfl : _ = r := Option.some.inj hr
        obtain rfl : _ = d := Option.some.inj hd
        rcases List.mem_map.mp hpr with ⟨i, hi, rfl⟩
        cases hmap : PRESTO_TYPES_MAPPING i.2 with
        | none => left; simp [hmap]
        | some t =>
            right
            exact ⟨t, by simp [hmap], presto_map_portable i.2 t hmap⟩
    | databaseError fi raw =>
        cases fi with
        | none => exact absurd hr (by simp [prestoRunQuery])
        | some m =>
            cases m with
            | none =>
                obtain rfl : _ = r := Option.some.inj hr
                exact absurd hd (by simp)
            | some msg =>
                obtain rfl : _ = r := Option.some.inj hr
                exact absurd hd (by simp)
    | interrupted =>
        obtain rfl : _ = r := Option.some.inj hr
        exact absurd hd (by simp)
    | otherError m =>
        obtain rfl : _ = r := Option.some.inj hr
        exact absurd hd (by simp)
  · intro o d hd pr hpr
    cases o with
    | completed names rows =>
        obtain rfl : _ = d := Option.some.inj hd
        rcases List.mem_map.mp hpr with ⟨c, hc, rfl⟩
        exact ⟨rfl, by simp [PORTABLE_TYPES]⟩
    | interrupted => exact absurd hd (by simp [cassRunQuery])

/-- Witness for C9_types_portable: oid 20 maps to the portable integer
type. -/
theorem C9_types_portable_witness : TYPE_INTEGER ∈ PORTABLE_TYPES :=
  C9_types_portable.1 20 TYPE_INTEGER rfl

/-- Claim C10: whenever a run_query returns normally, exactly one of the
returned pair (data, error) is None: on success the data payload is
present and the error is None; on every handled failure or cancellation
branch the data is None and the error is a present message — including
the PostgreSQL branch for a statement that completes without a result
set, which returns data None and the error
"Query completed but it returned no data.".  (The Presto DatabaseError
handler with no failureInfo key raises instead of returning, hence the
guard on prestoRunQuery returning a value.) -/
theorem C10_run_query_pairs :
    (∀ o : PgOutcome, exactlyOneNone (pgRunQuery o)) ∧
    (∀ o r, prestoRunQuery o = some r → exactlyOneNone r) ∧
    (∀ o : CassOutcome, exactlyOneNone (cassRunQuery o)) ∧
    (∀ rows, pgRunQuery (PgOutcome.completed none rows) =
      (none, some "Query completed but it returned no data.")) := by
  refine ⟨?_, ?_, ?_, fun rows => rfl⟩
  · intro o
    cases o with
    | completed desc rows =>
        cases desc with
        | some l => exact Or.inl ⟨rfl, rfl⟩
        | none => exact Or.inr ⟨rfl, rfl⟩
    | ioError => exact Or.inr ⟨rfl, rfl⟩
    | databaseError m => exact Or.inr ⟨rfl, rfl⟩
    | interrupted => exact Or.inr ⟨rfl, rfl⟩
  · intro o r h
    cases o with
    | completed desc rows =>
        obtain rfl : _ = r := Option.some.inj h
        exact Or.inl ⟨rfl, rfl⟩
    | databaseError fi raw =>
        cases fi with
        | none => exact absurd h (by simp [prestoRunQuery])
        | some m =>
            cases m with
            | none =>
                obtain rfl : _ = r := Option.some.inj h
                exact Or.inr ⟨rfl, rfl⟩
            | some msg =>
                obtain rfl : _ = r := Option.some.inj h
                exact Or.inr ⟨rfl, rfl⟩
    | interrupted =>
        obtain rfl : _ = r := Option.some.inj h
        exact Or.inr ⟨rfl, rfl⟩
    | otherError m =>
        obtain rfl : _ = r := Option.some.inj h
        exact Or.inr ⟨rfl, rfl⟩
  · intro o
    cases o with
    | completed names rows => exact Or.inl ⟨rfl, rfl⟩
    | interrupted => exact Or.inr ⟨rfl, rfl⟩

/-- Witness for C10_run_query_pairs: the cancelled Presto branch and the
interrupted PostgreSQL branch both carry data None and a present error
message. -/
theorem C10_run_query_pairs_witness :
    exactlyOneNone
      ((none : Option ResultData), some "Query cancelled by user.") ∧
    exactlyOneNone (pgRunQuery PgOutcome.ioError) :=
  ⟨C10_run_query_pairs.2.1 PrestoOutcome.interrupted
      ((none : Option ResultData), some "Query cancelled by user.") rfl,
   C10_run_query_pairs.1 PgOutcome.ioError⟩

end Redash
